import Mathlib

/-!
# Verification of the StagPy lazy step/snapshot access layer

Shallow embedding of the core of `stagpy/stagyydata.py`: the sparse
`isnap -> istep` index (`_Indexes`), the step registry (`_Steps`), the
snapshot registry (`_Snaps`), the per-step field cache (`_Fields`), the
empty placeholder step (`_EmptyStep`), and the geometry classification
performed by `_Geometry.__init__`.

Python conventions are made explicit: fallible operations return
`Except PyErr`, the `UNDETERMINED` sentinel becomes a dedicated
constructor, Python `None` becomes `Option.none`, and state that the
Python code mutates in place is passed explicitly.
-/

/-- Python exceptions raised by the embedded code paths. -/
inductive PyErr where
  /-- `ValueError` with its message. -/
  | valueError (msg : String)
  /-- `TypeError` (e.g. subscripting `None`, `int()` of a non-numeric object). -/
  | typeError
  /-- `IndexError` (list index out of range). -/
  | indexError
  /-- Marks re-entry of `_Fields.__missing__` into itself (unbounded recursion
  in Python); never reached when the parse supplies all sibling arrays. -/
  | recursionError
deriving DecidableEq

deriving instance DecidableEq for Except

/-- Result of `_Indexes.get_istep`: either the `UNDETERMINED` sentinel or a
stored value, which is itself `None` or an `istep` number. -/
inductive IstepLookup where
  | undetermined
  | found (v : Option Nat)
deriving DecidableEq

/-- Embeds `_Indexes` (`stagyydata.py` lines 224-254): the `isnap -> istep`
correspondence held in `nlst` parallel sorted bucket lists.  The source's
attributes `self._nlst`, `self.isnap`, `self.istep`. -/
structure Indexes where
  nlst : Nat
  isnap : List (List Nat)
  istep : List (List (Option Nat))
deriving DecidableEq

/-- `_Indexes.__init__`: 400 empty buckets on both sides. -/
def indexesInit : Indexes :=
  ⟨400, List.replicate 400 [], List.replicate 400 []⟩

/-- `bisect.bisect_left` (Python standard library), modelled by its documented
contract on the sorted bucket lists the code maintains: the leftmost insertion
point, i.e. the length of the prefix of entries strictly below the key. -/
def bisectLeft (l : List Nat) (x : Nat) : Nat :=
  (l.takeWhile (· < x)).length

/-- `_Indexes._isnap_idx`: bucket number (`isnap // (100000 // self._nlst)`),
position inside the bucket, and whether `isnap` is already present.  Reading
`self.isnap[super_idx]` past the 400 buckets raises `IndexError`, which is the
Python behaviour for `isnap >= 100000`. -/
def Indexes.isnapIdx (ind : Indexes) (key : Nat) : Except PyErr (Nat × Nat × Bool) :=
  let superIdx := key / (100000 / ind.nlst)
  match ind.isnap[superIdx]? with
  | none => .error .indexError
  | some bucket =>
      let idx := bisectLeft bucket key
      match bucket[idx]? with
      | some v => .ok (superIdx, idx, v == key)
      | none => .ok (superIdx, idx, false)

/-- `_Indexes.get_istep`: the stored `istep` for `isnap`, or `UNDETERMINED`. -/
def Indexes.get_istep (ind : Indexes) (key : Nat) : Except PyErr IstepLookup :=
  match ind.isnapIdx key with
  | .error e => .error e
  | .ok (superIdx, idx, present) =>
      if present then
        match ind.istep[superIdx]? with
        | none => .error .indexError
        | some bstep =>
            match bstep[idx]? with
            | none => .error .indexError
            | some v => .ok (.found v)
      else .ok .undetermined

/-- `_Indexes.insert`: inject the correspondence unless `isnap` is already
present (`list.insert` at the bisection point on both bucket lists). -/
def Indexes.insert (ind : Indexes) (key : Nat) (val : Option Nat) :
    Except PyErr Indexes :=
  match ind.isnapIdx key with
  | .error e => .error e
  | .ok (_, _, true) => .ok ind
  | .ok (superIdx, idx, false) =>
      match ind.isnap[superIdx]?, ind.istep[superIdx]? with
      | some bsnap, some bstep =>
          .ok { ind with
                isnap := ind.isnap.set superIdx (bsnap.insertIdx idx key),
                istep := ind.istep.set superIdx (bstep.insertIdx idx val) }
      | _, _ => .error .indexError

/-- Well-formedness of an `_Indexes` value: 400 buckets on the `isnap` side and
bucket-by-bucket equal lengths on the `istep` side (true of every state the
code constructs). -/
def IndexesInv (ind : Indexes) : Prop :=
  ind.nlst = 400 ∧ ind.isnap.length = 400 ∧
    ind.isnap.map List.length = ind.istep.map List.length

instance : Decidable (IndexesInv ind) := by unfold IndexesInv; infer_instance

set_option maxRecDepth 4000 in
theorem indexesInit_inv : IndexesInv indexesInit :=
  ⟨rfl, by simp [indexesInit], by simp [indexesInit]⟩

/-- A Python key passed to `dataset.steps[...]` / `dataset.snaps[...]`:
`None`, an `int`, a `float` (exact rational value of the IEEE double), or a
`str`.  Slices are handled separately. -/
inductive PyKey where
  | pyNone
  | pyInt (n : Int)
  | pyFloat (q : ℚ)
  | pyStr (s : String)
deriving DecidableEq

/-- Python `str.lower()`: character-wise lowering of the string (the shape
strings compared here are ASCII). -/
def pyLower (s : String) : String := ⟨s.data.map Char.toLower⟩

/-- Auxiliary for `strToInt`: fold decimal digits into a number; `none` until
at least one digit has been read, and `none` on any non-digit character. -/
def parseNatDigits : List Char → Option Nat → Option Nat
  | [], acc => acc
  | c :: cs, acc =>
      if c.isDigit then
        parseNatDigits cs (some ((acc.getD 0) * 10 + (c.toNat - 48)))
      else none

/-- Python `int(str)` on a decimal literal: an optional minus sign followed
by one or more digits; anything else raises `ValueError` (whitespace and
underscore tolerance of the real parser are not modelled). -/
def strToInt (s : String) : Option Int :=
  match s.data with
  | '-' :: cs => (parseNatDigits cs none).map (fun n => -(n : Int))
  | cs => (parseNatDigits cs none).map (fun n => (n : Int))

/-- Python `int(float)`: truncation toward zero. -/
def ratTrunc (q : ℚ) : Int :=
  if 0 ≤ q then ⌊q⌋ else -⌊-q⌋

/-- Python `int(key)` as used by `_Steps.__missing__`: the identity on ints,
truncation on floats, digit parsing on strings (`ValueError` on failure),
`TypeError` on `None`. -/
def intConv : PyKey → Except PyErr Int
  | .pyNone => .error .typeError
  | .pyInt n => .ok n
  | .pyFloat q => .ok (ratTrunc q)
  | .pyStr s =>
      match strToInt s with
      | some n => .ok n
      | none => .error (.valueError "invalid literal for int")

/-- The state of the `_Steps` registry (`stagyydata.py` lines 360-393): the
underlying dict, as insertion-ordered `(istep, object id)` pairs, plus the
next fresh object identity (each `_Step(istep, sdat)` construction allocates
a new object). -/
structure StepsState where
  entries : List (Nat × Nat)
  nextId : Nat
deriving DecidableEq

/-- A fresh, empty `_Steps` registry. -/
def stepsInit : StepsState := ⟨[], 0⟩

/-- What a `steps[...]` access evaluates to: a cached `_Step` object
(identified by its allocation id) or a fresh `_EmptyStep` placeholder. -/
inductive StepObj where
  | step (id : Nat)
  | emptyStep
deriving DecidableEq

/-- Raw dict lookup among the registry's integer keys. -/
def stepsLookup (entries : List (Nat × Nat)) (k : Nat) : Option Nat :=
  (entries.find? (fun e => e.1 == k)).map (·.2)

/-- The create-or-fetch core of `_Steps.__missing__` for a non-negative
integer: `if not self.__contains__(istep): super().__setitem__(istep,
_Step(istep, self.sdat))` followed by `super().__getitem__(istep)`. -/
def stepsGetNat (st : StepsState) (k : Nat) : Nat × StepsState :=
  match stepsLookup st.entries k with
  | some id => (id, st)
  | none => (st.nextId, ⟨st.entries ++ [(k, st.nextId)], st.nextId + 1⟩)

/-- Python dict key lookup for a raw key: numeric keys hash by value, so a
`float` with integral value hits the `int` key it equals; `None` and strings
never equal the registry's non-negative integer keys. -/
def dictLookup (st : StepsState) (key : PyKey) : Option Nat :=
  match key with
  | .pyInt n => if 0 ≤ n then stepsLookup st.entries n.toNat else none
  | .pyFloat q =>
      if q.den = 1 ∧ 0 ≤ q.num then stepsLookup st.entries q.num.toNat else none
  | _ => none

/-- `_Steps.__missing__` (lines 382-393): `None` yields a fresh `_EmptyStep`;
otherwise `int(istep)` (re-raising conversion failures as
`ValueError('Time step should be an integer value')`), a sign check, then
create-and-cache. -/
def stepsMissingFn (st : StepsState) (key : PyKey) :
    Except PyErr (StepObj × StepsState) :=
  match key with
  | .pyNone => .ok (.emptyStep, st)
  | _ =>
      match intConv key with
      | .error _ => .error (.valueError "Time step should be an integer value")
      | .ok n =>
          if n < 0 then .error (.valueError "Time step should be positive")
          else
            let (id, st') := stepsGetNat st n.toNat
            .ok (.step id, st')

/-- `_Steps.__getitem__` on a non-slice key: the slice path fails with
`AttributeError`, so the access falls back to the dict lookup, which invokes
`__missing__` on a miss. -/
def stepsGetItemKey (st : StepsState) (key : PyKey) :
    Except PyErr (StepObj × StepsState) :=
  match dictLookup st key with
  | some id => .ok (.step id, st)
  | none => stepsMissingFn st key

/-- `_Steps.__setitem__` (lines 368-369) is `pass`: assignment is ignored. -/
def stepsSetItem (st : StepsState) (_key : PyKey) (_val : Nat) : StepsState :=
  st

/-- Python `range(start, stop, stride)` as a list, for `stride ≠ 0`:
`max 0 ⌈(stop-start)/stride⌉` elements `start + stride*i`. -/
def rangeList (start stop stride : Int) : List Int :=
  if 0 < stride then
    (List.range (((stop - start).toNat + (stride.toNat - 1)) / stride.toNat)).map
      (fun i => start + stride * i)
  else if stride < 0 then
    (List.range (((start - stop).toNat + ((-stride).toNat - 1)) / (-stride).toNat)).map
      (fun i => start + stride * i)
  else []

/-- The generator object produced by the slice path of
`_Steps.__getitem__`: the istep values not yet consumed.  A Python generator
is single-use: iterating it consumes it. -/
structure StepsGen where
  ks : List Int
deriving DecidableEq

/-- The slice path of `_Steps.__getitem__` (lines 371-380): `key.start or 0`
and `key.step or 1` (Python `or` maps both `None` and `0` to the default),
then a generator over `range(start, stop, step)`.  A `None` stop would raise
`TypeError` inside `range` and is not modelled. -/
def stepsGetSlice (start : Option Int) (stop : Int) (step : Option Int) :
    StepsGen :=
  let start' := match start with | none => 0 | some s => if s = 0 then 0 else s
  let step' := match step with | none => 1 | some s => if s = 0 then 1 else s
  ⟨rangeList start' stop step'⟩

/-- The generator body `super(self.__class__, self).__getitem__(k)`: a plain
dict access with an integer key, invoking `__missing__` on a miss. -/
def dictGetInt (st : StepsState) (k : Int) : Except PyErr (StepObj × StepsState) :=
  stepsGetItemKey st (.pyInt k)

/-- Run the generator body over a list of keys, threading the registry state
and stopping at the first raised exception. -/
def genRun (st : StepsState) : List Int → Except PyErr (List StepObj × StepsState)
  | [] => .ok ([], st)
  | k :: ks =>
      match dictGetInt st k with
      | .error e => .error e
      | .ok (obj, st') =>
          match genRun st' ks with
          | .error e => .error e
          | .ok (objs, st'') => .ok (obj :: objs, st'')

/-- Iterate a generator to exhaustion: produce its items (or the exception it
raises) and the spent generator, which has nothing left to yield. -/
def genIterAll (st : StepsState) (g : StepsGen) :
    Except PyErr (List StepObj × StepsState) × StepsGen :=
  (genRun st g.ks, ⟨[]⟩)

/-- The state owned by a `_Snaps` registry together with its `StagyyData`
facade: the `_Indexes` sparse index, the shared `_Steps` registry, and a
count of `stagyyparsers.fields(...)` file probes issued so far (the I/O the
spec reasons about). -/
structure SnapsState where
  indexes : Indexes
  steps : StepsState
  probes : Nat
deriving DecidableEq

/-- A fresh dataset state: empty index, empty step registry, no probes. -/
def snapsInit : SnapsState := ⟨indexesInit, stepsInit, 0⟩

/-- The scan loop of `_Snaps.__missing__` (lines 418-423): probe each
configured record kind in order with
`stagyyparsers.fields(filename(par, isnap), only_istep=True)` until one
yields an istep.  Returns the found istep (if any) and the updated probe
count; the probe oracle abstracts the external parsing service. -/
def snapsScan (probe : String → Nat → Option Nat) (key : Nat) :
    List String → Nat → Option Nat × Nat
  | [], n => (none, n)
  | par :: rest, n =>
      match probe par key with
      | some istepF => (some istepF, n + 1)
      | none => snapsScan probe key rest (n + 1)

/-- `_Snaps.__missing__` (lines 415-425).  The cache hit on `_isteps` skips
all I/O; `steps[None]` produces a fresh `_EmptyStep`; a scan hit runs
`bind(isnap, istep)` (index insertion plus step creation; the attribute
write `steps[istep].isnap = isnap` touches the step object only) and returns
the step; an exhausted scan caches `(isnap, None)` and returns
`steps[istep]` where `istep` is the last probe result — `None` for a
nonempty scan list, but the bare `UNDETERMINED` sentinel when the scan list
is empty, in which case `int(UNDETERMINED)` raises `TypeError`. -/
def snapsMissing (scan : List String) (probe : String → Nat → Option Nat)
    (st : SnapsState) (key : Nat) : Except PyErr (StepObj × SnapsState) :=
  match st.indexes.get_istep key with
  | .error e => .error e
  | .ok (.found none) => .ok (.emptyStep, st)
  | .ok (.found (some istepF)) =>
      let (id, steps') := stepsGetNat st.steps istepF
      .ok (.step id, { st with steps := steps' })
  | .ok .undetermined =>
      match snapsScan probe key scan st.probes with
      | (some istepF, n) =>
          match st.indexes.insert key (some istepF) with
          | .error e => .error e
          | .ok ind' =>
              let (id, steps') := stepsGetNat st.steps istepF
              .ok (.step id, ⟨ind', steps', n⟩)
      | (none, n) =>
          match st.indexes.insert key none with
          | .error e => .error e
          | .ok ind' =>
              if scan.isEmpty then .error .typeError
              else .ok (.emptyStep, ⟨ind', st.steps, n⟩)

/-- `_Snaps.__getitem__` on a non-slice key always delegates to
`__missing__`: the snaps dict itself is never populated. -/
def snapsGetItem (scan : List String) (probe : String → Nat → Option Nat)
    (st : SnapsState) (key : Nat) : Except PyErr (StepObj × SnapsState) :=
  snapsMissing scan probe st key

/-- `_Snaps.__setitem__`, inherited from `_Steps` (lines 368-369): `pass`. -/
def snapsSetItem (st : SnapsState) (_key : PyKey) (_val : Nat) : SnapsState :=
  st

/-- `_EmptyStep.__getattribute__` (lines 356-357): every attribute access on
the placeholder returns `None`, whatever the attribute name. -/
def emptyStepGetattr (_name : String) : Option Unit := none

/-- `placeholder.fields[name]`: the attribute read yields `None`
(`emptyStepGetattr "fields"`), and Python subscription of `None` raises
`TypeError`. -/
def emptyStepFieldsItem (_name : String) : Except PyErr Unit :=
  match emptyStepGetattr "fields" with
  | none => .error .typeError
  | some f => .ok f

/-- The state of a per-step `_Fields` cache (lines 181-206): the dict of
already-unbundled arrays (field name to array identity) and the number of
full `stagyyparsers.fields(fieldfile)` parse calls made so far. -/
structure FieldsCache where
  cache : List (String × Nat)
  parses : Nat
deriving DecidableEq

/-- Python dict assignment `self[fld_name] = fld`: overwrite in place or
append a new entry. -/
def dictSet (l : List (String × Nat)) (k : String) (v : Nat) :
    List (String × Nat) :=
  match l with
  | [] => [(k, v)]
  | (k', v') :: rest => if k' = k then (k', v) :: rest else (k', v') :: dictSet rest k v

/-- Dict lookup in the fields cache. -/
def dictLookupS (l : List (String × Nat)) (k : String) : Option Nat :=
  (l.find? (fun e => e.1 == k)).map (·.2)

/-- The sub-field fan-out table of `_Fields.__missing__` (lines 198-203):
the names a parsed record of kind `parType` unbundles into. -/
def fldNames (parType : String) (name : String) : List String :=
  if parType = "vp" then ["u", "v", "w", "p"]
  else if parType = "sx" then ["sx", "sy", "sz", "x"]
  else [name]

/-- `_Fields.__getitem__`: cache hit, else `__missing__` (lines 191-206) —
catalog check (`ValueError` for unknown names), one
`stagyyparsers.fields(fieldfile)` parse (the header capture into
`self._header` touches no state observed here), fan-out of the returned
arrays over the sub-field names via `zip`, then `return self[name]`
(modelled as a recursion marker when the parse left `name` uncached). -/
def fieldsGetItem (catalog : String → Option String) (parse : String → List Nat)
    (fc : FieldsCache) (name : String) : Except PyErr (Nat × FieldsCache) :=
  match dictLookupS fc.cache name with
  | some v => .ok (v, fc)
  | none =>
      match catalog name with
      | none => .error (.valueError "Unknown field variable")
      | some parType =>
          let arrays := parse parType
          let cache' := ((fldNames parType name).zip arrays).foldl
            (fun c p => dictSet c p.1 p.2) fc.cache
          match dictLookupS cache' name with
          | some v => .ok (v, ⟨cache', fc.parses + 1⟩)
          | none => .error .recursionError

/-- The header entries read by the classification part of
`_Geometry.__init__` (lines 26-49): per-axis cell counts `nts`, block count
`ntb`, the aspect-ratio array, and the inner-boundary radius `rcmb`
(possibly `None`).  Real-valued entries are the exact rational values of the
IEEE doubles the parser produces. -/
structure HeaderG where
  nts : List Nat
  ntb : Nat
  aspect : List ℚ
  rcmb : Option ℚ
deriving DecidableEq

/-- The `geometry` namelist entries read by `_Geometry.__init__`: the declared
shape string and the fallback inner-boundary radius `r_cmb`. -/
structure ParGeom where
  shape : String
  r_cmb : ℚ
deriving DecidableEq

/-- The `self._shape` dict built by `_Geometry.__init__`. -/
structure ShapeFlags where
  sph : Bool
  cyl : Bool
  axi : Bool
  ntot : List Nat
deriving DecidableEq

/-- `numpy.pi`, i.e. the IEEE double nearest π, exactly:
`7074237752028440 / 2^51`. -/
def pi64 : ℚ := 7074237752028440 / 2251799813685248

/-- The classification part of `_Geometry.__init__` (lines 26-49), returning
the `_shape` flags and the header as left by the constructor.  `twodXZ` is
the `twod_xz` property (`nytot == 1`, with `nytot = ntot[1]`).  When
`header['rcmb']` is `None` the code assigns
`header['rcmb'] = par['geometry']['r_cmb']` — an in-place header mutation —
and re-reads it.  `aspect[0]` is modelled by `headI` (the claims below never
exercise an empty aspect array, where Python would raise `IndexError` in the
short-circuited disjunct).  The remainder of the constructor (coordinate and
mesh construction, lines 51-71) only reads the header and is outside the
classification modelled here. -/
def geometryInit (header : HeaderG) (par : ParGeom) : ShapeFlags × HeaderG :=
  let ntot := header.nts ++ [header.ntb]
  let shape := pyLower par.shape
  let twodXZ := ntot.getD 1 0 == 1
  let sch : Bool × Bool × HeaderG :=
    match header.rcmb with
    | some r =>
        if 0 ≤ r then
          let c := twodXZ && (shape == "cylindrical" || decide (pi64 ≤ header.aspect.headI))
          (!c, c, header)
        else (false, false, header)
    | none =>
        let header' := { header with rcmb := some par.r_cmb }
        if 0 ≤ par.r_cmb then
          if twodXZ && shape == "cylindrical" then (false, true, header')
          else if shape == "spherical" then (true, false, header')
          else (false, false, header')
        else (false, false, header')
  let axi := !(sch.1 || sch.2.1) && twodXZ && (shape == "axisymmetric")
  (⟨sch.1, sch.2.1, axi, ntot⟩, sch.2.2)

/-- `_Geometry.cylindrical`. -/
def ShapeFlags.cylindrical (f : ShapeFlags) : Bool := f.cyl

/-- `_Geometry.spherical`. -/
def ShapeFlags.spherical (f : ShapeFlags) : Bool := f.sph

/-- `_Geometry.curvilinear`: spherical or cylindrical. -/
def ShapeFlags.curvilinear (f : ShapeFlags) : Bool := f.sph || f.cyl

/-- `_Geometry.cartesian`: not curvilinear. -/
def ShapeFlags.cartesian (f : ShapeFlags) : Bool := !f.curvilinear

/-! ## Helper lemmas on lists -/

theorem takeWhile_append_of {α : Type} (p : α → Bool) (A B : List α) (x : α)
    (hA : ∀ a ∈ A, p a = true) (hx : p x = false) :
    (A ++ x :: B).takeWhile p = A := by
  induction A with
  | nil => simp [List.takeWhile_cons, hx]
  | cons a A ih =>
      have ha : p a = true := hA a (by simp)
      simp only [List.cons_append, List.takeWhile_cons, ha, if_true]
      rw [ih (fun b hb => hA b (by simp [hb]))]

theorem insertIdx_append_len {α : Type} (A B : List α) (x : α) :
    (A ++ B).insertIdx A.length x = A ++ x :: B := by
  induction A with
  | nil => simp
  | cons a A ih => simp [List.insertIdx_succ_cons, ih]

theorem getElem?_append_len {α : Type} (A B : List α) (x : α) :
    (A ++ x :: B)[A.length]? = some x := by
  rw [List.getElem?_append_right (le_refl _)]
  simp

theorem insertIdx_getElem?_self {α : Type} (l : List α) (n : Nat) (x : α)
    (h : n ≤ l.length) : (l.insertIdx n x)[n]? = some x := by
  induction n generalizing l with
  | zero => cases l <;> simp
  | succ n ih =>
      cases l with
      | nil => simp at h
      | cons a l =>
          simp only [List.insertIdx_succ_cons, List.getElem?_cons_succ]
          exact ih l (by simpa using h)

theorem find?_append_none {α : Type} (p : α → Bool) (l l' : List α)
    (h : l.find? p = none) : (l ++ l').find? p = l'.find? p := by
  rw [List.find?_append, h, Option.none_or]

theorem find?_append_some {α : Type} (p : α → Bool) (l l' : List α) (a : α)
    (h : l.find? p = some a) : (l ++ l').find? p = some a := by
  rw [List.find?_append, h]
  rfl

theorem find?_none_not_mem {α : Type} {k : Nat} {l : List (Nat × α)}
    (h : l.find? (fun e => e.1 == k) = none) : k ∉ l.map Prod.fst := by
  intro hk
  rcases List.mem_map.mp hk with ⟨e, he, hek⟩
  have := List.find?_eq_none.mp h e he
  simp [hek] at this


theorem set_getElem?_self {α : Type} (l : List α) (n : Nat) (a b : α)
    (h : l[n]? = some b) : (l.set n a)[n]? = some a := by
  rw [List.getElem?_set_self', h]
  rfl

theorem Indexes.insert_spec_aux (ind : Indexes) (key : Nat) (val : Option Nat)
    (bucket : List Nat)
    (h2 : ind.isnap[key / (100000 / ind.nlst)]? = some bucket)
    (hidx : ind.isnapIdx key =
      .ok (key / (100000 / ind.nlst), bisectLeft bucket key, false))
    (hmap : ind.isnap.map List.length = ind.istep.map List.length) :
    ∃ ind', ind.insert key val = .ok ind' ∧
      ind'.get_istep key = .ok (.found val) ∧
      (∀ w, ind'.insert key w = .ok ind') := by
  have hslt : key / (100000 / ind.nlst) < ind.isnap.length := by
    by_contra hge
    push_neg at hge
    rw [List.getElem?_eq_none_iff.mpr hge] at h2
    exact Option.noConfusion h2
  have hlen2 : ind.istep.length = ind.isnap.length := by
    have h := congrArg List.length hmap
    simpa using h.symm
  obtain ⟨bstep, h4⟩ : ∃ b, ind.istep[key / (100000 / ind.nlst)]? = some b := by
    cases h4 : ind.istep[key / (100000 / ind.nlst)]? with
    | some b => exact ⟨b, rfl⟩
    | none =>
        exfalso
        have := List.getElem?_eq_none_iff.mp h4
        omega
  have hblen : bstep.length = bucket.length := by
    have hm := congrArg (fun l => l[key / (100000 / ind.nlst)]?) hmap
    simp only [List.getElem?_map, h2, h4, Option.map_some'] at hm
    exact (Option.some.inj hm).symm
  have hile : bisectLeft bucket key ≤ bucket.length :=
    (List.takeWhile_prefix _).length_le
  have hAB : bucket.takeWhile (· < key) ++ bucket.dropWhile (· < key) = bucket :=
    List.takeWhile_append_dropWhile (p := (· < key)) (l := bucket)
  have h5 : (bucket.takeWhile (· < key) ++ bucket.dropWhile (· < key)).insertIdx
      (bucket.takeWhile (· < key)).length key =
      bucket.takeWhile (· < key) ++ key :: bucket.dropWhile (· < key) :=
    insertIdx_append_len _ _ key
  have hnb : bucket.insertIdx (bisectLeft bucket key) key =
      bucket.takeWhile (· < key) ++ key :: bucket.dropWhile (· < key) := by
    rw [← h5, hAB]
    rfl
  have htw : (bucket.takeWhile (· < key) ++ key :: bucket.dropWhile (· < key)).takeWhile
      (· < key) = bucket.takeWhile (· < key) :=
    takeWhile_append_of _ _ _ key
      (fun a ha => by simpa using List.mem_takeWhile_imp ha) (by simp)
  have hbis : bisectLeft (bucket.insertIdx (bisectLeft bucket key) key) key =
      bisectLeft bucket key := by
    rw [hnb]
    simp only [bisectLeft, htw]
  have hget : (bucket.insertIdx (bisectLeft bucket key) key)[bisectLeft bucket key]? =
      some key := by
    rw [hnb]
    exact getElem?_append_len _ _ key
  refine ⟨{ ind with
      isnap := ind.isnap.set (key / (100000 / ind.nlst))
        (bucket.insertIdx (bisectLeft bucket key) key),
      istep := ind.istep.set (key / (100000 / ind.nlst))
        (bstep.insertIdx (bisectLeft bucket key) val) }, ?_, ?_, ?_⟩
  · simp only [Indexes.insert, hidx, h2, h4]
  · have hidx2 : Indexes.isnapIdx { ind with
        isnap := ind.isnap.set (key / (100000 / ind.nlst))
          (bucket.insertIdx (bisectLeft bucket key) key),
        istep := ind.istep.set (key / (100000 / ind.nlst))
          (bstep.insertIdx (bisectLeft bucket key) val) } key =
        .ok (key / (100000 / ind.nlst), bisectLeft bucket key, true) := by
      simp only [Indexes.isnapIdx,
        set_getElem?_self ind.isnap _ _ bucket h2, hbis, hget, beq_self_eq_true]
    simp only [Indexes.get_istep, hidx2, if_true,
      set_getElem?_self ind.istep _ _ bstep h4]
    rw [insertIdx_getElem?_self bstep (bisectLeft bucket key) val (by omega)]
  · intro w
    have hidx2 : Indexes.isnapIdx { ind with
        isnap := ind.isnap.set (key / (100000 / ind.nlst))
          (bucket.insertIdx (bisectLeft bucket key) key),
        istep := ind.istep.set (key / (100000 / ind.nlst))
          (bstep.insertIdx (bisectLeft bucket key) val) } key =
        .ok (key / (100000 / ind.nlst), bisectLeft bucket key, true) := by
      simp only [Indexes.isnapIdx,
        set_getElem?_self ind.isnap _ _ bucket h2, hbis, hget, beq_self_eq_true]
    simp only [Indexes.insert, hidx2]

theorem Indexes.insert_spec (ind : Indexes) (key : Nat) (val : Option Nat)
    (hinv : IndexesInv ind)
    (hund : ind.get_istep key = .ok .undetermined) :
    ∃ ind', ind.insert key val = .ok ind' ∧
      ind'.get_istep key = .ok (.found val) ∧
      (∀ w, ind'.insert key w = .ok ind') := by
  obtain ⟨hnl, hlen, hmap⟩ := hinv
  cases h2 : ind.isnap[key / (100000 / ind.nlst)]? with
  | none =>
      exfalso
      simp [Indexes.get_istep, Indexes.isnapIdx, h2] at hund
  | some bucket =>
      cases h3 : bucket[bisectLeft bucket key]? with
      | some v =>
          have hvk : (v == key) = false := by
            cases hvk : (v == key) with
            | false => rfl
            | true =>
                exfalso
                have hidx1 : ind.isnapIdx key =
                    .ok (key / (100000 / ind.nlst), bisectLeft bucket key, true) := by
                  simp only [Indexes.isnapIdx, h2, h3, hvk]
                simp only [Indexes.get_istep, hidx1, if_true] at hund
                cases h4 : ind.istep[key / (100000 / ind.nlst)]? with
                | none => rw [h4] at hund; simp at hund
                | some bstep =>
                    rw [h4] at hund
                    cases h5 : bstep[bisectLeft bucket key]? with
                    | none => simp [h5] at hund
                    | some w => simp [h5] at hund
          have hidx : ind.isnapIdx key =
              .ok (key / (100000 / ind.nlst), bisectLeft bucket key, false) := by
            simp only [Indexes.isnapIdx, h2, h3, hvk]
          exact Indexes.insert_spec_aux ind key val bucket h2 hidx hmap
      | none =>
          have hidx : ind.isnapIdx key =
              .ok (key / (100000 / ind.nlst), bisectLeft bucket key, false) := by
            simp only [Indexes.isnapIdx, h2, h3]
          exact Indexes.insert_spec_aux ind key val bucket h2 hidx hmap

theorem Indexes.get_istep_init (key : Nat) (hlt : key < 100000) :
    indexesInit.get_istep key = .ok .undetermined := by
  have hs : key / (100000 / indexesInit.nlst) < 400 := by
    show key / (100000 / 400) < 400
    omega
  have h2 : indexesInit.isnap[key / (100000 / indexesInit.nlst)]? = some [] := by
    show (List.replicate 400 ([] : List Nat))[_]? = some []
    rw [List.getElem?_replicate]
    simp [hs]
  simp [Indexes.get_istep, Indexes.isnapIdx, h2, bisectLeft]

theorem Indexes.ops_total (ind : Indexes) (key : Nat) (val : Option Nat)
    (hinv : IndexesInv ind) (hlt : key < 100000) :
    key / (100000 / ind.nlst) < ind.isnap.length ∧
      (∃ r, ind.get_istep key = .ok r) ∧
      (∃ ind', ind.insert key val = .ok ind') := by
  obtain ⟨hnl, hlen, hmap⟩ := hinv
  have hslt : key / (100000 / ind.nlst) < ind.isnap.length := by
    rw [hnl, hlen]
    omega
  refine ⟨hslt, ?_⟩
  obtain ⟨bucket, h2⟩ : ∃ b, ind.isnap[key / (100000 / ind.nlst)]? = some b := by
    cases h2 : ind.isnap[key / (100000 / ind.nlst)]? with
    | some b => exact ⟨b, rfl⟩
    | none =>
        exfalso
        have := List.getElem?_eq_none_iff.mp h2
        omega
  have hlen2 : ind.istep.length = ind.isnap.length := by
    have h := congrArg List.length hmap
    simpa using h.symm
  obtain ⟨bstep, h4⟩ : ∃ b, ind.istep[key / (100000 / ind.nlst)]? = some b := by
    cases h4 : ind.istep[key / (100000 / ind.nlst)]? with
    | some b => exact ⟨b, rfl⟩
    | none =>
        exfalso
        have := List.getElem?_eq_none_iff.mp h4
        omega
  have hblen : bstep.length = bucket.length := by
    have hm := congrArg (fun l => l[key / (100000 / ind.nlst)]?) hmap
    simp only [List.getElem?_map, h2, h4, Option.map_some'] at hm
    exact (Option.some.inj hm).symm
  cases h3 : bucket[bisectLeft bucket key]? with
  | none =>
      have hidx : ind.isnapIdx key =
          .ok (key / (100000 / ind.nlst), bisectLeft bucket key, false) := by
        simp only [Indexes.isnapIdx, h2, h3]
      constructor
      · exact ⟨.undetermined, by simp [Indexes.get_istep, hidx]⟩
      · exact ⟨{ ind with
            isnap := ind.isnap.set (key / (100000 / ind.nlst))
              (bucket.insertIdx (bisectLeft bucket key) key),
            istep := ind.istep.set (key / (100000 / ind.nlst))
              (bstep.insertIdx (bisectLeft bucket key) val) },
          by simp only [Indexes.insert, hidx, h2, h4]⟩
  | some v =>
      cases hvk : (v == key) with
      | false =>
          have hidx : ind.isnapIdx key =
              .ok (key / (100000 / ind.nlst), bisectLeft bucket key, false) := by
            simp only [Indexes.isnapIdx, h2, h3, hvk]
          constructor
          · exact ⟨.undetermined, by simp [Indexes.get_istep, hidx]⟩
          · exact ⟨{ ind with
                isnap := ind.isnap.set (key / (100000 / ind.nlst))
                  (bucket.insertIdx (bisectLeft bucket key) key),
                istep := ind.istep.set (key / (100000 / ind.nlst))
                  (bstep.insertIdx (bisectLeft bucket key) val) },
              by simp only [Indexes.insert, hidx, h2, h4]⟩
      | true =>
          have hidx : ind.isnapIdx key =
              .ok (key / (100000 / ind.nlst), bisectLeft bucket key, true) := by
            simp only [Indexes.isnapIdx, h2, h3, hvk]
          have hblt : bisectLeft bucket key < bucket.length := by
            by_contra hge
            push_neg at hge
            rw [List.getElem?_eq_none_iff.mpr (by omega)] at h3
            exact Option.noConfusion h3
          obtain ⟨w, h5⟩ : ∃ w, bstep[bisectLeft bucket key]? = some w := by
            cases h5 : bstep[bisectLeft bucket key]? with
            | some w => exact ⟨w, rfl⟩
            | none =>
                exfalso
                have := List.getElem?_eq_none_iff.mp h5
                omega
          constructor
          · exact ⟨.found w, by simp [Indexes.get_istep, hidx, h4, h5]⟩
          · exact ⟨ind, by simp only [Indexes.insert, hidx]⟩

/-! ## Step registry lemmas -/

theorem stepsLookup_none_iff (entries : List (Nat × Nat)) (k : Nat) :
    stepsLookup entries k = none ↔ entries.find? (fun e => e.1 == k) = none := by
  unfold stepsLookup
  cases entries.find? (fun e => e.1 == k) <;> simp

theorem stepsGetNat_lookup (st : StepsState) (k : Nat) :
    stepsLookup (stepsGetNat st k).2.entries k = some (stepsGetNat st k).1 := by
  unfold stepsGetNat
  cases h0 : stepsLookup st.entries k with
  | some id => simpa using h0
  | none =>
      have hf : st.entries.find? (fun e => e.1 == k) = none :=
        (stepsLookup_none_iff _ _).mp h0
      show stepsLookup (st.entries ++ [(k, st.nextId)]) k = some st.nextId
      unfold stepsLookup
      rw [find?_append_none _ _ _ hf]
      simp [List.find?_cons]

theorem stepsGetNat_idem (st : StepsState) (k : Nat) :
    stepsGetNat (stepsGetNat st k).2 k = ((stepsGetNat st k).1, (stepsGetNat st k).2) := by
  set r := stepsGetNat st k with hr
  have h := stepsGetNat_lookup st k
  rw [← hr] at h
  unfold stepsGetNat
  rw [h]

theorem stepsGetNat_mono (st : StepsState) (k k' id' : Nat)
    (h : stepsLookup st.entries k' = some id') :
    stepsLookup (stepsGetNat st k).2.entries k' = some id' := by
  unfold stepsGetNat
  cases h0 : stepsLookup st.entries k with
  | some id => exact h
  | none =>
      obtain ⟨e, he, he2⟩ : ∃ e, st.entries.find? (fun x => x.1 == k') = some e ∧ e.2 = id' := by
        unfold stepsLookup at h
        cases hf : st.entries.find? (fun x => x.1 == k') with
        | none => rw [hf] at h; exact Option.noConfusion h
        | some e => rw [hf] at h; exact ⟨e, rfl, Option.some.inj h⟩
      show stepsLookup (st.entries ++ [(k, st.nextId)]) k' = some id'
      unfold stepsLookup
      rw [find?_append_some _ _ _ _ he]
      simp [he2]

theorem stepsGetNat_nodup (st : StepsState) (k : Nat)
    (h : (st.entries.map Prod.fst).Nodup) :
    ((stepsGetNat st k).2.entries.map Prod.fst).Nodup := by
  unfold stepsGetNat
  cases h0 : stepsLookup st.entries k with
  | some id => exact h
  | none =>
      have hf : st.entries.find? (fun e => e.1 == k) = none :=
        (stepsLookup_none_iff _ _).mp h0
      have hk : k ∉ st.entries.map Prod.fst := find?_none_not_mem hf
      show ((st.entries ++ [(k, st.nextId)]).map Prod.fst).Nodup
      rw [List.map_append]
      rw [List.nodup_append]
      exact ⟨h, by simp, fun a ha hak => hk (by rwa [List.mem_singleton.mp hak] at ha)⟩

theorem stepsGetNat_entries (st : StepsState) (k : Nat) :
    (stepsGetNat st k).2.entries = st.entries ∨
      (stepsGetNat st k).2.entries = st.entries ++ [(k, st.nextId)] := by
  unfold stepsGetNat
  cases stepsLookup st.entries k with
  | some id => exact .inl rfl
  | none => exact .inr rfl

theorem ratTrunc_den_one (q : ℚ) (h : q.den = 1) : ratTrunc q = q.num := by
  have hq : (q.num : ℚ) = q := Rat.coe_int_num_of_den_eq_one h
  unfold ratTrunc
  split
  · rw [← hq, Int.floor_intCast]
    simp
  · rw [← hq, ← Int.cast_neg, Int.floor_intCast, neg_neg]
    simp

theorem dictGetInt_spec (st : StepsState) (k : Int) (hk : 0 ≤ k) :
    ∃ id st', dictGetInt st k = .ok (.step id, st') ∧
      stepsLookup st'.entries k.toNat = some id ∧
      (∀ k2 id2, stepsLookup st.entries k2 = some id2 →
        stepsLookup st'.entries k2 = some id2) := by
  unfold dictGetInt stepsGetItemKey
  cases h0 : dictLookup st (.pyInt k) with
  | some id =>
      refine ⟨id, st, rfl, ?_, fun _ _ h => h⟩
      simp only [dictLookup, if_pos hk] at h0
      exact h0
  | none =>
      have h1 : stepsLookup st.entries k.toNat = none := by
        simp only [dictLookup, if_pos hk] at h0
        exact h0
      refine ⟨(stepsGetNat st k.toNat).1, (stepsGetNat st k.toNat).2, ?_, ?_, ?_⟩
      · show stepsMissingFn st (.pyInt k) = _
        simp only [stepsMissingFn, intConv]
        rw [if_neg (by omega)]
      · exact stepsGetNat_lookup st k.toNat
      · exact fun k2 id2 h => stepsGetNat_mono st k.toNat k2 id2 h

theorem genRun_spec (ks : List Int) (st : StepsState)
    (hpos : ∀ k ∈ ks, 0 ≤ k) :
    ∃ objs st', genRun st ks = .ok (objs, st') ∧
      objs.length = ks.length ∧
      (∀ k2 id2, stepsLookup st.entries k2 = some id2 →
        stepsLookup st'.entries k2 = some id2) ∧
      (∀ (i : Nat) (ki : Int), ks[i]? = some ki →
        ∃ id, objs[i]? = some (StepObj.step id) ∧
          stepsLookup st'.entries ki.toNat = some id) := by
  induction ks generalizing st with
  | nil =>
      exact ⟨[], st, rfl, rfl, fun _ _ h => h, fun i ki h => by simp at h⟩
  | cons k ks ih =>
      obtain ⟨id, st1, hget, hlook, hmono1⟩ :=
        dictGetInt_spec st k (hpos k (by simp))
      obtain ⟨objs, st2, hrun, hlen, hmono2, hidxd⟩ :=
        ih st1 (fun a ha => hpos a (by simp [ha]))
      refine ⟨.step id :: objs, st2, ?_, by simpa using hlen, ?_, ?_⟩
      · unfold genRun
        simp only [hget, hrun]
      · exact fun k2 id2 h => hmono2 k2 id2 (hmono1 k2 id2 h)
      · intro i ki hki
        cases i with
        | zero =>
            refine ⟨id, by simp, ?_⟩
            have : ki = k := by simpa using hki.symm
            subst this
            exact hmono2 _ _ hlook
        | succ i =>
            obtain ⟨id2, ho, hl⟩ := hidxd i ki (by simpa using hki)
            exact ⟨id2, by simpa using ho, hl⟩

theorem snapsScan_none (probe : String → Nat → Option Nat) (key : Nat)
    (scan : List String) (n : Nat)
    (h : ∀ par ∈ scan, probe par key = none) :
    snapsScan probe key scan n = (none, n + scan.length) := by
  induction scan generalizing n with
  | nil => simp [snapsScan]
  | cons par rest ih =>
      unfold snapsScan
      rw [h par (by simp)]
      rw [ih (n + 1) (fun a ha => h a (by simp [ha]))]
      simp
      omega

/-! ## Claim theorems -/

/-- C2 (amended): bucket selection by integer division stays inside the fixed
bucket array, and point lookup and insertion succeed, for every snapshot
number `isnap < 100000` (the code's bucket scheme covers exactly
`400 * 250 = 100000` keys; beyond that the bucket index leaves the array —
see the counterexample). -/
theorem c2_sparse_index_safety (ind : Indexes) (key : Nat) (val : Option Nat)
    (hinv : IndexesInv ind) (hlt : key < 100000) :
    key / (100000 / ind.nlst) < ind.isnap.length ∧
      (∃ r, ind.get_istep key = .ok r) ∧
      (∃ ind', ind.insert key val = .ok ind') :=
  Indexes.ops_total ind key val hinv hlt

theorem c2_witness :
    (123 : Nat) / (100000 / indexesInit.nlst) < indexesInit.isnap.length ∧
      (∃ r, indexesInit.get_istep 123 = .ok r) ∧
      (∃ ind', indexesInit.insert 123 (some 7) = .ok ind') :=
  c2_sparse_index_safety indexesInit 123 (some 7) indexesInit_inv (by norm_num)

/-- C2 counterexample: the claim promises insertion succeeds for *every*
non-negative `isnap`, but `isnap = 100000` selects bucket
`100000 // 250 = 400`, one past the 400-bucket array, and the insert raises
`IndexError`. -/
theorem c2_counterexample :
    indexesInit.insert 100000 (some 0) = .error .indexError := by
  have h : indexesInit.isnap[(100000 : Nat) / (100000 / indexesInit.nlst)]? =
      (none : Option (List Nat)) := by
    show (List.replicate 400 ([] : List Nat))[(400 : Nat)]? = none
    rw [List.getElem?_replicate]
    norm_num
  simp [Indexes.insert, Indexes.isnapIdx, h]

/-- C3 (amended): for every `isnap < 100000` and every `istep` value: after
`insert(isnap, istep)` into an index not yet containing `isnap`, lookup
returns that `istep`; a subsequent `insert(isnap, istep')` with any other
value is a no-op (the whole index state is unchanged, so the stored value is
unchanged — first writer wins); and lookup of an `isnap` never inserted
(here: on the fresh index) returns `UNDETERMINED`.  (For `isnap ≥ 100000`
both operations raise `IndexError` instead — see the counterexample.) -/
theorem c3_first_writer_wins (ind : Indexes) (key : Nat) (val : Option Nat)
    (hinv : IndexesInv ind) (hlt : key < 100000)
    (hnew : ind.get_istep key = .ok .undetermined) :
    (∃ ind', ind.insert key val = .ok ind' ∧
      ind'.get_istep key = .ok (.found val) ∧
      (∀ w, ind'.insert key w = .ok ind')) ∧
    indexesInit.get_istep key = .ok .undetermined :=
  ⟨Indexes.insert_spec ind key val hinv hnew, Indexes.get_istep_init key hlt⟩

set_option maxRecDepth 4000 in
theorem c3_witness :
    (∃ ind', indexesInit.insert 5 (some 7) = .ok ind' ∧
      ind'.get_istep 5 = .ok (.found (some 7)) ∧
      (∀ w, ind'.insert 5 w = .ok ind')) ∧
    indexesInit.get_istep 5 = .ok .undetermined :=
  c3_first_writer_wins indexesInit 5 (some 7) indexesInit_inv (by norm_num)
    (by decide)

/-- C3 counterexample: the claim quantifies over *every* `isnap`, but lookup
of the never-inserted `isnap = 100000` raises `IndexError` instead of
returning `UNDETERMINED`. -/
theorem c3_counterexample :
    indexesInit.get_istep 100000 = .error .indexError := by
  have h : indexesInit.isnap[(100000 : Nat) / (100000 / indexesInit.nlst)]? =
      (none : Option (List Nat)) := by
    show (List.replicate 400 ([] : List Nat))[(400 : Nat)]? = none
    rw [List.getElem?_replicate]
    norm_num
  simp [Indexes.get_istep, Indexes.isnapIdx, h]

/-- C4: for every integer `istep ≥ 0`, repeated `dataset.steps[istep]`
accesses return the identical cached `_Step` object (same allocation id, and
the second access changes nothing), and the registry keeps at most one entry
per `istep` (key-distinctness of the dict is preserved). -/
theorem c4_identity_stable_caching (st : StepsState) (k : Int) (hk : 0 ≤ k) :
    ∃ id st', stepsGetItemKey st (.pyInt k) = .ok (.step id, st') ∧
      stepsGetItemKey st' (.pyInt k) = .ok (.step id, st') ∧
      ((st.entries.map Prod.fst).Nodup → (st'.entries.map Prod.fst).Nodup) := by
  cases h1 : stepsLookup st.entries k.toNat with
  | some id =>
      refine ⟨id, st, ?_, ?_, fun h => h⟩ <;>
        simp [stepsGetItemKey, dictLookup, if_pos hk, h1]
  | none =>
      refine ⟨(stepsGetNat st k.toNat).1, (stepsGetNat st k.toNat).2, ?_, ?_,
        fun h => stepsGetNat_nodup st k.toNat h⟩
      · simp only [stepsGetItemKey, dictLookup, if_pos hk, h1, stepsMissingFn, intConv]
        rw [if_neg (by omega)]
      · have hl := stepsGetNat_lookup st k.toNat
        simp [stepsGetItemKey, dictLookup, if_pos hk, hl]

theorem c4_witness :
    ∃ id st', stepsGetItemKey stepsInit (.pyInt 5) = .ok (.step id, st') ∧
      stepsGetItemKey st' (.pyInt 5) = .ok (.step id, st') ∧
      (st'.entries.map Prod.fst).Nodup := by
  obtain ⟨id, st', h1, h2, h3⟩ := c4_identity_stable_caching stepsInit 5 (by norm_num)
  exact ⟨id, st', h1, h2, h3 (by simp [stepsInit])⟩

/-- C8 (amended): `dataset.steps[k]` fails with
`ValueError('Time step should be an integer value')` for keys whose `int()`
conversion fails (non-numeric strings), and with
`ValueError('Time step should be positive')` for keys converting to a
negative integer, creating no step in either case; every key whose `int()`
conversion yields a non-negative integer succeeds, creating and caching the
step for the *converted* value — in particular a non-integral float such as
`3.7` is silently truncated to step `3` rather than rejected. -/
theorem c8_invalid_step_number (st : StepsState) (key : PyKey) :
    (∀ s, key = .pyStr s → strToInt s = none →
      stepsGetItemKey st key =
        .error (.valueError "Time step should be an integer value")) ∧
    (∀ n : Int, intConv key = .ok n → n < 0 →
      stepsGetItemKey st key =
        .error (.valueError "Time step should be positive")) ∧
    (∀ n : Int, intConv key = .ok n → 0 ≤ n →
      ∃ id st', stepsGetItemKey st key = .ok (.step id, st') ∧
        stepsLookup st'.entries n.toNat = some id) := by
  refine ⟨?_, ?_, ?_⟩
  · rintro s rfl hs
    simp [stepsGetItemKey, dictLookup, stepsMissingFn, intConv, hs]
  · intro n hn hneg
    cases key with
    | pyNone => simp [intConv] at hn
    | pyInt m =>
        have hm : m = n := by simpa [intConv] using hn
        subst hm
        simp only [stepsGetItemKey, dictLookup, if_neg (by omega : ¬ (0 : Int) ≤ m)]
        simp [stepsMissingFn, intConv, if_pos hneg]
    | pyFloat q =>
        have hq : ratTrunc q = n := by simpa [intConv] using hn
        have hcond : ¬ (q.den = 1 ∧ 0 ≤ q.num) := by
          rintro ⟨hd, hpos⟩
          rw [ratTrunc_den_one q hd] at hq
          omega
        simp only [stepsGetItemKey, dictLookup, if_neg hcond]
        simp [stepsMissingFn, intConv, hq, if_pos hneg]
    | pyStr s =>
        simp only [stepsGetItemKey, dictLookup]
        cases hs : strToInt s with
        | none => simp [intConv, hs] at hn
        | some m =>
            have hm : m = n := by simpa [intConv, hs] using hn
            subst hm
            simp [stepsMissingFn, intConv, hs, if_pos hneg]
  · intro n hn hpos
    cases key with
    | pyNone => simp [intConv] at hn
    | pyInt m =>
        have hm : m = n := by simpa [intConv] using hn
        subst hm
        exact dictGetInt_spec st m hpos |>.imp
          (fun id h => h.imp (fun st' h => ⟨h.1, h.2.1⟩))
    | pyFloat q =>
        have hq : ratTrunc q = n := by simpa [intConv] using hn
        by_cases hcond : q.den = 1 ∧ 0 ≤ q.num
        · have hnum : q.num = n := by rw [← ratTrunc_den_one q hcond.1, hq]
          cases h1 : stepsLookup st.entries q.num.toNat with
          | some id =>
              refine ⟨id, st, ?_, ?_⟩
              · simp only [stepsGetItemKey, dictLookup, if_pos hcond, h1]
              · rw [← hnum]
                exact h1
          | none =>
              refine ⟨(stepsGetNat st n.toNat).1, (stepsGetNat st n.toNat).2, ?_, ?_⟩
              · simp only [stepsGetItemKey, dictLookup, if_pos hcond, h1,
                  stepsMissingFn, intConv, hq]
                rw [if_neg (by omega)]
              · exact stepsGetNat_lookup st n.toNat
        · refine ⟨(stepsGetNat st n.toNat).1, (stepsGetNat st n.toNat).2, ?_,
            stepsGetNat_lookup st n.toNat⟩
          simp only [stepsGetItemKey, dictLookup, if_neg hcond, stepsMissingFn,
            intConv, hq]
          rw [if_neg (by omega)]
    | pyStr s =>
        cases hs : strToInt s with
        | none => simp [intConv, hs] at hn
        | some m =>
            have hm : m = n := by simpa [intConv, hs] using hn
            subst hm
            refine ⟨(stepsGetNat st m.toNat).1, (stepsGetNat st m.toNat).2, ?_,
              stepsGetNat_lookup st m.toNat⟩
            simp only [stepsGetItemKey, dictLookup, stepsMissingFn, intConv, hs]
            rw [if_neg (by omega)]

theorem c8_witness :
    stepsGetItemKey stepsInit (.pyStr "abc") =
      .error (.valueError "Time step should be an integer value") :=
  (c8_invalid_step_number stepsInit (.pyStr "abc")).1 "abc" rfl (by decide)

/-- C8 counterexample: the claim says every non-integral key fails with the
step-number error, but `dataset.steps[3.7]` succeeds — `int(3.7)` truncates
to `3` and a step for `3` is created and cached. -/
theorem c8_counterexample :
    stepsGetItemKey stepsInit
      (.pyFloat (Rat.mk' 37 10 (by norm_num) (by norm_num))) =
      .ok (.step 0, ⟨[(3, 0)], 1⟩) := by
  decide

theorem stepsGetItemKey_mono (st : StepsState) (key : PyKey) (obj : StepObj)
    (st' : StepsState) (h : stepsGetItemKey st key = .ok (obj, st'))
    (k id : Nat) (hl : stepsLookup st.entries k = some id) :
    stepsLookup st'.entries k = some id := by
  unfold stepsGetItemKey at h
  cases h0 : dictLookup st key with
  | some i =>
      rw [h0] at h
      have : st' = st := by
        injection h with h
        injection h with _ h
        exact h.symm
      rw [this]
      exact hl
  | none =>
      rw [h0] at h
      unfold stepsMissingFn at h
      cases key with
      | pyNone =>
          have : st' = st := by
            injection h with h
            injection h with _ h
            exact h.symm
          rw [this]
          exact hl
      | pyInt m =>
          simp only [intConv] at h
          by_cases hm : m < 0
          · rw [if_pos hm] at h
            exact Except.noConfusion h
          · rw [if_neg hm] at h
            have : st' = (stepsGetNat st m.toNat).2 := by
              injection h with h
              injection h with _ h
              exact h.symm
            rw [this]
            exact stepsGetNat_mono st m.toNat k id hl
      | pyFloat q =>
          simp only [intConv] at h
          by_cases hm : ratTrunc q < 0
          · rw [if_pos hm] at h
            exact Except.noConfusion h
          · rw [if_neg hm] at h
            have : st' = (stepsGetNat st (ratTrunc q).toNat).2 := by
              injection h with h
              injection h with _ h
              exact h.symm
            rw [this]
            exact stepsGetNat_mono st (ratTrunc q).toNat k id hl
      | pyStr s =>
          simp only [intConv] at h
          cases hs : strToInt s with
          | none =>
              simp only [hs] at h
              exact Except.noConfusion h
          | some m =>
              simp only [hs] at h
              by_cases hm : m < 0
              · rw [if_pos hm] at h
                exact Except.noConfusion h
              · rw [if_neg hm] at h
                have : st' = (stepsGetNat st m.toNat).2 := by
                  injection h with h
                  injection h with _ h
                  exact h.symm
                rw [this]
                exact stepsGetNat_mono st m.toNat k id hl

/-- C10: item assignment through the public step registry
(`steps[key] = val`) and through the snapshot registry (which inherits
`__setitem__`) is silently ignored — the registry state is unchanged — and a
cached entry, once created, is never replaced or removed by any public
access: any `steps[key']` access preserves every existing
`istep ↦ object` binding. -/
theorem c10_setitem_ignored (st : StepsState) (sst : SnapsState)
    (key key2 : PyKey) (v v2 : Nat) (k id : Nat) (obj : StepObj)
    (st' : StepsState)
    (hbind : stepsLookup st.entries k = some id)
    (hget : stepsGetItemKey st key2 = .ok (obj, st')) :
    stepsSetItem st key v = st ∧ snapsSetItem sst key v2 = sst ∧
      stepsLookup st'.entries k = some id :=
  ⟨rfl, rfl, stepsGetItemKey_mono st key2 obj st' hget k id hbind⟩

theorem c10_witness :
    stepsSetItem ⟨[(2, 0)], 1⟩ (.pyInt 5) 99 = ⟨[(2, 0)], 1⟩ ∧
      snapsSetItem snapsInit (.pyInt 5) 99 = snapsInit ∧
      stepsLookup (⟨[(2, 0), (7, 1)], 2⟩ : StepsState).entries 2 = some 0 :=
  c10_setitem_ignored ⟨[(2, 0)], 1⟩ snapsInit (.pyInt 5) (.pyInt 7) 99 99 2 0
    (.step 1) ⟨[(2, 0), (7, 1)], 2⟩ (by decide) (by decide)

/-- C7 (amended): for every slice whose `range(start, stop, stride)` values
are all non-negative, iterating `dataset.steps[start:stop:stride]` yields
exactly the cached step objects for those istep values, in order; but the
returned value is a single-use generator, not a restartable sequence — once
exhausted, iterating the same returned value again yields nothing. -/
theorem c7_slice_generator (st : StepsState) (start : Option Int) (stop : Int)
    (step : Option Int)
    (hpos : ∀ k ∈ (stepsGetSlice start stop step).ks, 0 ≤ k) :
    ∃ objs st',
      genIterAll st (stepsGetSlice start stop step) = (.ok (objs, st'), ⟨[]⟩) ∧
      objs.length = (stepsGetSlice start stop step).ks.length ∧
      (∀ (i : Nat) (ki : Int), (stepsGetSlice start stop step).ks[i]? = some ki →
        ∃ id, objs[i]? = some (StepObj.step id) ∧
          stepsLookup st'.entries ki.toNat = some id) ∧
      genIterAll st' ⟨[]⟩ = (.ok ([], st'), ⟨[]⟩) := by
  obtain ⟨objs, st', hrun, hlen, _, hidx⟩ :=
    genRun_spec (stepsGetSlice start stop step).ks st hpos
  refine ⟨objs, st', ?_, hlen, hidx, rfl⟩
  unfold genIterAll
  rw [hrun]

theorem c7_witness :
    ∃ objs st',
      genIterAll stepsInit (stepsGetSlice (some 10) 20 (some 2)) =
        (.ok (objs, st'), ⟨[]⟩) ∧
      objs.length = (stepsGetSlice (some 10) 20 (some 2)).ks.length ∧
      (∀ (i : Nat) (ki : Int),
        (stepsGetSlice (some 10) 20 (some 2)).ks[i]? = some ki →
        ∃ id, objs[i]? = some (StepObj.step id) ∧
          stepsLookup st'.entries ki.toNat = some id) ∧
      genIterAll st' ⟨[]⟩ = (.ok ([], st'), ⟨[]⟩) :=
  c7_slice_generator stepsInit (some 10) 20 (some 2) (by decide)

/-- C7 counterexample: `steps[10:20:2]` yields the five steps 10,12,…,18 on
the first iteration, but the claim's re-iterability fails — a second
iteration over the very same returned generator yields the empty sequence,
not the same five steps. -/
theorem c7_counterexample :
    (genIterAll stepsInit (stepsGetSlice (some 10) 20 (some 2))).1 =
      .ok ([.step 0, .step 1, .step 2, .step 3, .step 4],
        ⟨[(10, 0), (12, 1), (14, 2), (16, 3), (18, 4)], 5⟩) ∧
    (genIterAll ⟨[(10, 0), (12, 1), (14, 2), (16, 3), (18, 4)], 5⟩
        (genIterAll stepsInit (stepsGetSlice (some 10) 20 (some 2))).2).1 =
      .ok ([], ⟨[(10, 0), (12, 1), (14, 2), (16, 3), (18, 4)], 5⟩) ∧
    ([] : List StepObj) ≠ [.step 0, .step 1, .step 2, .step 3, .step 4] := by
  refine ⟨?_, ?_, ?_⟩ <;> decide

/-- C1 (amended): for every snapshot number `isnap < 100000` and a nonempty
configured record-kind list, if no kind's file yields a step number,
`dataset.snaps[isnap]` returns the inert `_EmptyStep` placeholder, whose
every *attribute* access yields `None` (unavailable) — though subscripting
its unavailable `.fields` raises `TypeError`, see the counterexample —, the
absent mapping is cached in the sparse index, and a second identical request
performs no additional file probes (the probe count is unchanged).  (For
`isnap ≥ 100000` the access raises `IndexError` — also in the
counterexample.) -/
theorem c1_missing_snapshot_placeholder (scan : List String)
    (probe : String → Nat → Option Nat) (st : SnapsState) (key : Nat)
    (hscan : scan ≠ [])
    (hinv : IndexesInv st.indexes)
    (hund : st.indexes.get_istep key = .ok .undetermined)
    (hmiss : ∀ par ∈ scan, probe par key = none) :
    ∃ st', snapsGetItem scan probe st key = .ok (.emptyStep, st') ∧
      st'.probes = st.probes + scan.length ∧
      snapsGetItem scan probe st' key = .ok (.emptyStep, st') ∧
      (∀ name, emptyStepGetattr name = none) := by
  obtain ⟨ind', hins, hget', _⟩ := Indexes.insert_spec st.indexes key none hinv hund
  have hscan2 := snapsScan_none probe key scan st.probes hmiss
  have hempty : scan.isEmpty = false := by
    cases scan with
    | nil => exact absurd rfl hscan
    | cons a l => rfl
  refine ⟨⟨ind', st.steps, st.probes + scan.length⟩, ?_, rfl, ?_, fun _ => rfl⟩
  · unfold snapsGetItem snapsMissing
    simp only [hund, hscan2, hins, hempty, Bool.false_eq_true, if_false]
  · unfold snapsGetItem snapsMissing
    simp only [hget']

theorem c1_witness :
    ∃ st', snapsGetItem ["t"] (fun _ _ => none) snapsInit 7 = .ok (.emptyStep, st') ∧
      st'.probes = snapsInit.probes + (["t"] : List String).length ∧
      snapsGetItem ["t"] (fun _ _ => none) st' 7 = .ok (.emptyStep, st') ∧
      (∀ name, emptyStepGetattr name = none) :=
  c1_missing_snapshot_placeholder ["t"] (fun _ _ => none) snapsInit 7
    (by simp) indexesInit_inv (Indexes.get_istep_init 7 (by norm_num))
    (fun par _ => rfl)

/-- C1 counterexample: the claim's own example `dataset.snaps[999999]` does
not return a placeholder — bucket `999999 // 250 = 3999` is outside the
400-bucket index and the access raises `IndexError`; and on a placeholder,
`.fields` is `None`, so the claimed fault-free `.fields['t']` access
actually raises `TypeError`. -/
theorem c1_counterexample :
    snapsGetItem ["t"] (fun _ _ => none) snapsInit 999999 = .error .indexError ∧
    emptyStepFieldsItem "t" = .error .typeError := by
  constructor
  · have h : snapsInit.indexes.isnap[(999999 : Nat) /
        (100000 / snapsInit.indexes.nlst)]? = (none : Option (List Nat)) := by
      show (List.replicate 400 ([] : List Nat))[(3999 : Nat)]? = none
      rw [List.getElem?_replicate]
      norm_num
    simp [snapsGetItem, snapsMissing, Indexes.get_istep, Indexes.isnapIdx, h]
  · rfl

/-- C5: for every field name of a bundled record (the `vp`
velocity-pressure record or the `sx` stress record), the first access on a
fresh per-step cache triggers exactly one parse call (the parse count goes
from 0 to 1) and caches all four named sibling sub-fields of the record;
afterwards, accessing any sibling returns its cached array with the cache
state unchanged — in particular zero additional parse calls. -/
theorem c5_bundled_fanout (catalog : String → Option String)
    (parse : String → List Nat) (par name : String) (a0 a1 a2 a3 : Nat)
    (hpar : par = "vp" ∨ par = "sx")
    (hcat : catalog name = some par)
    (hmem : name ∈ fldNames par name)
    (hparse : parse par = [a0, a1, a2, a3]) :
    ∃ v, fieldsGetItem catalog parse ⟨[], 0⟩ name =
        .ok (v, ⟨(fldNames par name).zip [a0, a1, a2, a3], 1⟩) ∧
      dictLookupS ((fldNames par name).zip [a0, a1, a2, a3]) name = some v ∧
      ∀ sib ∈ fldNames par name, ∃ w,
        fieldsGetItem catalog parse ⟨(fldNames par name).zip [a0, a1, a2, a3], 1⟩
            sib =
          .ok (w, ⟨(fldNames par name).zip [a0, a1, a2, a3], 1⟩) ∧
        dictLookupS ((fldNames par name).zip [a0, a1, a2, a3]) sib = some w := by
  rcases hpar with hp | hp <;> subst hp
  · have hf : fldNames "vp" name = ["u", "v", "w", "p"] := rfl
    rw [hf] at hmem ⊢
    have hcache : fieldsGetItem catalog parse ⟨[], 0⟩ name =
        match dictLookupS ((["u", "v", "w", "p"]).zip [a0, a1, a2, a3]) name with
        | some v => .ok (v, ⟨(["u", "v", "w", "p"]).zip [a0, a1, a2, a3], 1⟩)
        | none => .error .recursionError := by
      simp only [fieldsGetItem, dictLookupS, List.find?_nil, Option.map_none',
        hcat, hparse, hf]
      rfl
    fin_cases hmem <;>
      · rw [hcache]
        refine ⟨_, rfl, rfl, ?_⟩
        intro sib hsib
        fin_cases hsib <;> exact ⟨_, rfl, rfl⟩
  · have hf : fldNames "sx" name = ["sx", "sy", "sz", "x"] := rfl
    rw [hf] at hmem ⊢
    have hcache : fieldsGetItem catalog parse ⟨[], 0⟩ name =
        match dictLookupS ((["sx", "sy", "sz", "x"]).zip [a0, a1, a2, a3]) name with
        | some v => .ok (v, ⟨(["sx", "sy", "sz", "x"]).zip [a0, a1, a2, a3], 1⟩)
        | none => .error .recursionError := by
      simp only [fieldsGetItem, dictLookupS, List.find?_nil, Option.map_none',
        hcat, hparse, hf]
      rfl
    fin_cases hmem <;>
      · rw [hcache]
        refine ⟨_, rfl, rfl, ?_⟩
        intro sib hsib
        fin_cases hsib <;> exact ⟨_, rfl, rfl⟩

theorem c5_witness :
    ∃ v, fieldsGetItem
        (fun n => if n == "u" || n == "v" || n == "w" || n == "p"
          then some "vp" else none)
        (fun _ => [10, 11, 12, 13]) ⟨[], 0⟩ "u" =
        .ok (v, ⟨(fldNames "vp" "u").zip [10, 11, 12, 13], 1⟩) ∧
      dictLookupS ((fldNames "vp" "u").zip [10, 11, 12, 13]) "u" = some v ∧
      ∀ sib ∈ fldNames "vp" "u", ∃ w,
        fieldsGetItem
            (fun n => if n == "u" || n == "v" || n == "w" || n == "p"
              then some "vp" else none)
            (fun _ => [10, 11, 12, 13])
            ⟨(fldNames "vp" "u").zip [10, 11, 12, 13], 1⟩ sib =
          .ok (w, ⟨(fldNames "vp" "u").zip [10, 11, 12, 13], 1⟩) ∧
        dictLookupS ((fldNames "vp" "u").zip [10, 11, 12, 13]) sib = some w :=
  c5_bundled_fanout
    (fun n => if n == "u" || n == "v" || n == "w" || n == "p"
      then some "vp" else none)
    (fun _ => [10, 11, 12, 13]) "vp" "u" 10 11 12 13 (Or.inl rfl) rfl
    (by decide) rfl

/-- C6: the geometry classification truth table.  With a negative
inner-boundary radius in the header (e.g. `rcmb = -1`) and shape
"cartesian", the geometry is cartesian and neither cylindrical nor
spherical; with `rcmb ≥ 0` (e.g. `0.5`), a 2-D-in-plane grid (`nytot = 1`)
and declared shape "cylindrical", it is cylindrical; with `rcmb ≥ 0` and a
3-D grid it is spherical whatever the shape string says. -/
theorem c6_geometry_truth_table :
    (∀ (h : HeaderG) (p : ParGeom) (r : ℚ), h.rcmb = some r → r < 0 →
      p.shape = "cartesian" →
      (geometryInit h p).1.cartesian = true ∧
        (geometryInit h p).1.cylindrical = false ∧
        (geometryInit h p).1.spherical = false) ∧
    (∀ (h : HeaderG) (p : ParGeom) (r : ℚ), h.rcmb = some r → 0 ≤ r →
      h.nts.length = 3 → h.nts.getD 1 0 = 1 → p.shape = "cylindrical" →
      (geometryInit h p).1.cylindrical = true) ∧
    (∀ (h : HeaderG) (p : ParGeom) (r : ℚ), h.rcmb = some r → 0 ≤ r →
      h.nts.length = 3 → h.nts.getD 0 0 ≠ 1 → h.nts.getD 1 0 ≠ 1 →
      (geometryInit h p).1.spherical = true) := by
  refine ⟨?_, ?_, ?_⟩
  · intro h p r hr hneg hshape
    simp only [geometryInit, hr]
    rw [if_neg (not_le.mpr hneg)]
    simp [ShapeFlags.cartesian, ShapeFlags.curvilinear, ShapeFlags.cylindrical,
      ShapeFlags.spherical]
  · intro h p r hr hpos hlen h1 hshape
    have happ : (h.nts ++ [h.ntb])[(1 : Nat)]? = h.nts[(1 : Nat)]? := by
      rw [List.getElem?_append]
      rw [if_pos (by omega)]
    have htwod : (h.nts ++ [h.ntb])[(1 : Nat)]?.getD 0 = 1 := by
      rw [happ, ← List.getD_eq_getElem?_getD]
      exact h1
    simp only [geometryInit, hr, hshape]
    rw [if_pos hpos]
    simp [ShapeFlags.cylindrical, pyLower, htwod]
  · intro h p r hr hpos hlen h0 h1
    have happ : (h.nts ++ [h.ntb])[(1 : Nat)]? = h.nts[(1 : Nat)]? := by
      rw [List.getElem?_append]
      rw [if_pos (by omega)]
    have htwod : (h.nts ++ [h.ntb])[(1 : Nat)]?.getD 0 ≠ 1 := by
      rw [happ, ← List.getD_eq_getElem?_getD]
      exact h1
    simp only [geometryInit, hr]
    rw [if_pos hpos]
    simp [ShapeFlags.spherical, htwod]

theorem c6_witness :
    ((geometryInit ⟨[64, 64, 32], 1, [2], some (-1)⟩ ⟨"cartesian", 0⟩).1.cartesian = true ∧
      (geometryInit ⟨[64, 64, 32], 1, [2], some (-1)⟩ ⟨"cartesian", 0⟩).1.cylindrical = false ∧
      (geometryInit ⟨[64, 64, 32], 1, [2], some (-1)⟩ ⟨"cartesian", 0⟩).1.spherical = false) ∧
    (geometryInit ⟨[64, 1, 32], 1, [2],
        some (Rat.mk' 1 2 (by norm_num) (by norm_num))⟩
      ⟨"cylindrical", 0⟩).1.cylindrical = true ∧
    (geometryInit ⟨[64, 64, 32], 1, [2],
        some (Rat.mk' 1 2 (by norm_num) (by norm_num))⟩
      ⟨"axisymmetric", 0⟩).1.spherical = true :=
  ⟨c6_geometry_truth_table.1 ⟨[64, 64, 32], 1, [2], some (-1)⟩ ⟨"cartesian", 0⟩
      (-1) rfl (by decide) rfl,
    c6_geometry_truth_table.2.1 ⟨[64, 1, 32], 1, [2],
        some (Rat.mk' 1 2 (by norm_num) (by norm_num))⟩ ⟨"cylindrical", 0⟩
      (Rat.mk' 1 2 (by norm_num) (by norm_num)) rfl (by decide) rfl rfl rfl,
    c6_geometry_truth_table.2.2 ⟨[64, 64, 32], 1, [2],
        some (Rat.mk' 1 2 (by norm_num) (by norm_num))⟩ ⟨"axisymmetric", 0⟩
      (Rat.mk' 1 2 (by norm_num) (by norm_num)) rfl (by decide) rfl
      (by decide) (by decide)⟩

/-- C9 (amended): geometry resolution is deterministic, but it is *not* free
of effects on its header argument in every case: when the header already
carries an inner-boundary radius (`rcmb` is not `None`) the constructor
leaves the header unchanged, but when `rcmb` is `None` it writes the
configuration's `r_cmb` into the header's `rcmb` entry (and changes nothing
else), as the counterexample shows. -/
theorem c9_header_mutation (h : HeaderG) (p : ParGeom) :
    (∀ r, h.rcmb = some r → (geometryInit h p).2 = h) ∧
      (h.rcmb = none → (geometryInit h p).2 = { h with rcmb := some p.r_cmb }) := by
  constructor
  · intro r hr
    simp only [geometryInit, hr]
    split <;> rfl
  · intro hr
    simp only [geometryInit, hr]
    split
    · split
      · rfl
      · split <;> rfl
    · rfl

theorem c9_witness :
    (geometryInit ⟨[4, 4, 4], 1, [1], some 1⟩ ⟨"spherical", 1⟩).2 =
      ⟨[4, 4, 4], 1, [1], some 1⟩ :=
  (c9_header_mutation ⟨[4, 4, 4], 1, [1], some 1⟩ ⟨"spherical", 1⟩).1 1 rfl

/-- C9 counterexample: resolving a geometry from a header whose `rcmb` entry
is `None` overwrites that entry with the configuration's `r_cmb` — the
header argument comes back changed, so resolution is not pure in the claimed
frame sense. -/
theorem c9_counterexample :
    (geometryInit ⟨[4, 4, 4], 1, [1], none⟩ ⟨"spherical", 1⟩).2 ≠
      ⟨[4, 4, 4], 1, [1], none⟩ := by
  decide
